import Mathlib

/-!
Shallow embedding of `src/main.py` of the github-contribution-tracker
repository, together with theorems settling the frozen claims about its
fetch-paginate-normalize pipeline.

The embedding models:
  * `get_organization_id` (organization resolution, `main.py` lines 18-34),
  * `fetch_contributions` (the cursor-driven pagination loop, lines 36-149),
  * `process_contributions` (the normalizer, lines 151-189),
  * the timestamp handling performed by
    `datetime.strptime(-, "%Y-%m-%dT%H:%M:%SZ").strftime("%Y-%m-%d")`,
    following CPython's `_strptime` field regexes and `datetime` range
    validation, and the observed (glibc) `strftime` rendering, which
    zero-pads `%m` and `%d` to two digits but does not pad `%Y`.

Remote responses are modelled as explicit data (a resolution response and a
list of pages); the pagination loop consumes the page list as fuel, so a
run that would keep requesting beyond the supplied pages yields `none`.
-/

set_option linter.unusedVariables false

/-- One node of `pullRequestContributions.nodes` as selected by the query. -/
structure PullRequestNode where
  title : String
  url : String
  state : String
  repoName : String
  createdAt : String
deriving DecidableEq

/-- One node of `issueContributions.nodes` as selected by the query. -/
structure IssueNode where
  title : String
  url : String
  state : String
  repoName : String
  createdAt : String
deriving DecidableEq

/-- One node of `commitContributionsByRepository[i].contributions.nodes`. -/
structure CommitOccurrence where
  commitCount : Nat
  occurredAt : String
  url : String
deriving DecidableEq

/-- One entry of `commitContributionsByRepository`. -/
structure CommitRepo where
  repoName : String
  occurrences : List CommitOccurrence
deriving DecidableEq

/-- The `pageInfo` object of `pullRequestContributions`. -/
structure PageInfo where
  hasNextPage : Bool
  endCursor : Option String
deriving DecidableEq

/-- One server response for the paginated contributions query.  `errors` is
`some msg` when the response body carries an `errors` list. -/
structure Page where
  errors : Option String
  totalPullRequestContributions : Nat
  prNodes : List PullRequestNode
  prPageInfo : PageInfo
  issueNodes : List IssueNode
  commitRepos : List CommitRepo
deriving DecidableEq

/-- The accumulator `all_contributions` of `fetch_contributions`, holding the
three collections that matter to the pipeline. -/
structure Aggregate where
  prNodes : List PullRequestNode
  issueNodes : List IssueNode
  commitRepos : List CommitRepo
deriving DecidableEq

/-- The error taxonomy of the pipeline (all raised as `ValueError` in the
source; distinguished here by the site that raises them). -/
inductive TrackerError where
  | notFound (org : String)
  | apiError (msg : String)
  | parseError (timestamp : String)
deriving DecidableEq

/-- The `organization` object of the resolution response (`{id}`). -/
structure OrgNode where
  id : String
deriving DecidableEq

/-- The `data` object of the resolution response.  The outer `Option` models
presence of the `"organization"` key, the inner one a non-null value. -/
structure OrgData where
  organizationField : Option (Option OrgNode)
deriving DecidableEq

/-- A resolution response body; `dataField` models presence of `"data"`. -/
structure OrgLookupResponse where
  dataField : Option OrgData
deriving DecidableEq

/-- `get_organization_id` (`main.py` lines 18-34): returns the id when the
response has a `data` key, an `organization` key, and a truthy (non-null)
organization object, and raises `NotFoundError` otherwise. -/
def get_organization_id (resp : OrgLookupResponse) (organizationName : String) :
    Except TrackerError String :=
  match resp.dataField with
  | some d =>
    match d.organizationField with
    | some (some node) => Except.ok node.id
    | some none => Except.error (TrackerError.notFound organizationName)
    | none => Except.error (TrackerError.notFound organizationName)
  | none => Except.error (TrackerError.notFound organizationName)

/-- The variables of one paginated query request (`main.py` lines 112-116). -/
structure QueryVars where
  username : String
  organizationID : String
  prCursor : Option String
deriving DecidableEq

/-- The initial `all_contributions` value (`main.py` lines 38-48). -/
def emptyContributions : Aggregate :=
  { prNodes := [], issueNodes := [], commitRepos := [] }

/-- The body of one iteration of the pagination loop, restricted to its
effect on the accumulator (`main.py` lines 132-146): extend the pull-request
list, then store the issue list and the commit-by-repository list only when
the stored one is still empty. -/
def applyPage (agg : Aggregate) (p : Page) : Aggregate :=
  let agg1 : Aggregate := { agg with prNodes := agg.prNodes ++ p.prNodes }
  let agg2 : Aggregate :=
    if agg1.issueNodes.isEmpty then { agg1 with issueNodes := p.issueNodes } else agg1
  if agg2.commitRepos.isEmpty then { agg2 with commitRepos := p.commitRepos } else agg2

/-- The pagination loop of `fetch_contributions` (`main.py` lines 111-146).
The first component collects the variables of every request the loop issues
(including, when the supplied pages run out while `hasNextPage` is still
true, the pending request that got no modelled response); the second is the
outcome: `none` when the page list is exhausted, and otherwise the raised
error or the final accumulator. -/
def fetchLoop (username organizationID : String) :
    List Page → Option String → Aggregate →
      List QueryVars × Option (Except TrackerError Aggregate)
  | [], c, _ => ([⟨username, organizationID, c⟩], none)
  | p :: rest, c, agg =>
    match p.errors with
    | some e =>
      ([⟨username, organizationID, c⟩], some (Except.error (TrackerError.apiError e)))
    | none =>
      let agg' := applyPage agg p
      if p.prPageInfo.hasNextPage then
        let r := fetchLoop username organizationID rest p.prPageInfo.endCursor agg'
        (⟨username, organizationID, c⟩ :: r.1, r.2)
      else
        ([⟨username, organizationID, c⟩], some (Except.ok agg'))

/-- `fetch_contributions` (`main.py` lines 36-149): resolve the organization
first; on failure the exception propagates and no paginated query is issued;
on success run the pagination loop with an initial `null` cursor. -/
def fetch_contributions (username : String) (orgResp : OrgLookupResponse)
    (organizationName : String) (pages : List Page) :
    List QueryVars × Option (Except TrackerError Aggregate) :=
  match get_organization_id orgResp organizationName with
  | Except.error e => ([], some (Except.error e))
  | Except.ok organizationID =>
    fetchLoop username organizationID pages none emptyContributions

/-- Numeric value of a decimal digit character. -/
def digitVal (c : Char) : Nat := c.toNat - 48

/-- The year field of CPython's `%Y` regex: exactly four decimal digits. -/
def matchYear : List Char → Option (Nat × List Char)
  | a :: b :: c :: d :: rest =>
    if a.isDigit && b.isDigit && c.isDigit && d.isDigit then
      some (digitVal a * 1000 + digitVal b * 100 + digitVal c * 10 + digitVal d, rest)
    else
      none
  | _ => none

/-- A two-digit field alternative whose two-digit values range over
`lo..hi` (covering, e.g., `1[0-2]|0[1-9]` for `%m`). -/
def matchField2 (lo hi : Nat) : List Char → Option (Nat × List Char)
  | a :: b :: rest =>
    if a.isDigit && b.isDigit then
      let v := digitVal a * 10 + digitVal b
      if lo ≤ v && v ≤ hi then some (v, rest) else none
    else
      none
  | _ => none

/-- A one-digit field alternative with values `lo..9` (e.g. `[1-9]`). -/
def matchField1 (lo : Nat) : List Char → Option (Nat × List Char)
  | a :: rest =>
    if a.isDigit && lo ≤ digitVal a then some (digitVal a, rest) else none
  | _ => none

/-- The ` [1-9]` alternative of CPython's `%d` regex: a space followed by a
nonzero digit. -/
def matchSpaceDay : List Char → Option (Nat × List Char)
  | a :: b :: rest =>
    if a = ' ' && b.isDigit && 1 ≤ digitVal b then some (digitVal b, rest) else none
  | _ => none

/-- A literal character of the format string. -/
def matchLit (c : Char) : List Char → Option (List Char)
  | a :: rest => if a = c then some rest else none
  | _ => none

/-- The six numeric fields matched by `strptime` on this format string. -/
structure ParsedTime where
  year : Nat
  month : Nat
  day : Nat
  hour : Nat
  minute : Nat
  second : Nat
deriving DecidableEq

/-- The regex CPython compiles for `"%Y-%m-%dT%H:%M:%SZ"`, required to match
the whole string (`strptime` rejects unconverted trailing data).  Each field
commits to its first viable alternative; this agrees with the regex engine's
backtracking because a two-digit alternative demands a digit exactly where
every shorter alternative demands the following literal, so at most one
alternative of a field can ever lead to an overall match.
Field regexes: `%Y` = four digits; `%m` = `1[0-2]|0[1-9]|[1-9]`;
`%d` = `3[0-1]|[1-2]\d|0[1-9]|[1-9]| [1-9]`; `%H` = `2[0-3]|[0-1]\d|\d`;
`%M` = `[0-5]\d|\d`; `%S` = `6[0-1]|[0-5]\d|\d`. -/
def timeRegexMatch (cs : List Char) : Option ParsedTime :=
  match matchYear cs with
  | none => none
  | some (y, cs) =>
  match matchLit '-' cs with
  | none => none
  | some cs =>
  match (match matchField2 1 12 cs with
         | some r => some r
         | none => matchField1 1 cs) with
  | none => none
  | some (mo, cs) =>
  match matchLit '-' cs with
  | none => none
  | some cs =>
  match (match matchField2 1 31 cs with
         | some r => some r
         | none =>
           match matchField1 1 cs with
           | some r => some r
           | none => matchSpaceDay cs) with
  | none => none
  | some (d, cs) =>
  match matchLit 'T' cs with
  | none => none
  | some cs =>
  match (match matchField2 0 23 cs with
         | some r => some r
         | none => matchField1 0 cs) with
  | none => none
  | some (h, cs) =>
  match matchLit ':' cs with
  | none => none
  | some cs =>
  match (match matchField2 0 59 cs with
         | some r => some r
         | none => matchField1 0 cs) with
  | none => none
  | some (mi, cs) =>
  match matchLit ':' cs with
  | none => none
  | some cs =>
  match (match matchField2 0 61 cs with
         | some r => some r
         | none => matchField1 0 cs) with
  | none => none
  | some (s, cs) =>
  match matchLit 'Z' cs with
  | some [] => some ⟨y, mo, d, h, mi, s⟩
  | _ => none

/-- Gregorian leap-year rule, as used by `datetime`. -/
def isLeapYear (y : Nat) : Bool :=
  y % 4 == 0 && (y % 100 != 0 || y % 400 == 0)

/-- Length of a month, as validated by the `datetime` constructor. -/
def daysInMonth (y m : Nat) : Nat :=
  if m = 2 then (if isLeapYear y then 29 else 28)
  else if m = 4 ∨ m = 6 ∨ m = 9 ∨ m = 11 then 30
  else 31

/-- `datetime.strptime(s, "%Y-%m-%dT%H:%M:%SZ")`: the regex match followed by
the `datetime(...)` constructor's range validation (`MINYEAR = 1`; the four
matched year digits bound the year by 9999; day bounded by the month length;
seconds at most 59, so the regex's leap-second values 60 and 61 are
rejected by the constructor). -/
def strptimeZ (s : String) : Option ParsedTime :=
  match timeRegexMatch s.data with
  | none => none
  | some t =>
    if 1 ≤ t.year && 1 ≤ t.month && t.month ≤ 12 &&
        1 ≤ t.day && t.day ≤ daysInMonth t.year t.month &&
        t.hour ≤ 23 && t.minute ≤ 59 && t.second ≤ 59 then
      some t
    else
      none

/-- The character of a decimal digit. -/
def digitChar (n : Nat) : Char := Char.ofNat (48 + n)

/-- Two-digit zero-padded rendering, as `strftime` produces for `%m`, `%d`. -/
def pad2Chars (n : Nat) : List Char := [digitChar (n / 10 % 10), digitChar (n % 10)]

/-- Unpadded rendering of `%Y` as observed from CPython's `strftime` on the
reference platform: year 5 renders as `"5"`, not `"0005"`.  Total by taking
the low four digits above 9999, which is unreachable from `strptimeZ`. -/
def yearChars (y : Nat) : List Char :=
  if y < 10 then [digitChar y]
  else if y < 100 then [digitChar (y / 10), digitChar (y % 10)]
  else if y < 1000 then [digitChar (y / 100), digitChar (y / 10 % 10), digitChar (y % 10)]
  else [digitChar (y / 1000 % 10), digitChar (y / 100 % 10), digitChar (y / 10 % 10),
        digitChar (y % 10)]

/-- Character sequence of `strftime("%Y-%m-%d")`. -/
def formatDateChars (y m d : Nat) : List Char :=
  yearChars y ++ '-' :: (pad2Chars m ++ '-' :: pad2Chars d)

/-- `datetime.strftime("%Y-%m-%d")`: the day-precision date string stored in
a normalized record. -/
def formatDate (y m d : Nat) : String := ⟨formatDateChars y m d⟩

/-- Python's `<` on strings: lexicographic comparison of code points, a
proper prefix being smaller. -/
def strLtB : List Char → List Char → Bool
  | [], [] => false
  | [], _ :: _ => true
  | _ :: _, [] => false
  | a :: as, b :: bs =>
    if a.toNat < b.toNat then true
    else if b.toNat < a.toNat then false
    else strLtB as bs

/-- Python string comparison lifted to `String`. -/
def pyStrLt (s t : String) : Bool := strLtB s.data t.data

/-- The `"type"` tag of a normalized record. -/
inductive ContribType where
  | pullRequest
  | issue
  | commit
deriving DecidableEq

/-- One normalized contribution record (`main.py` lines 157-187). -/
structure ContributionRecord where
  type : ContribType
  title : String
  repository : String
  status : String
  url : String
  date : String
deriving DecidableEq

/-- The sort relation realizing `sorted(key=lambda x: x["date"], reverse=True)`:
a record may precede another exactly when its date key is not smaller, which
orders dates descending and keeps the input order of equal dates. -/
def sortKeyLe (a b : ContributionRecord) : Bool := ! pyStrLt a.date b.date

/-- Stable descending insertion: `r` is placed after every element whose date
key is strictly greater, hence before the elements whose key equals `r`'s that
occur later in the input. -/
def insertDesc (r : ContributionRecord) :
    List ContributionRecord → List ContributionRecord
  | [] => [r]
  | x :: xs => if pyStrLt r.date x.date then x :: insertDesc r xs else r :: x :: xs

/-- The sort performed by `sorted(contributions, key=lambda x: x["date"],
reverse=True)`.  Python's `sorted` with `reverse=True` is exactly the stable
sort by the key descending (equal keys keep their input order), which this
stable insertion sort computes. -/
def sortRecords : List ContributionRecord → List ContributionRecord
  | [] => []
  | r :: rest => insertDesc r (sortRecords rest)

/-- Normalization of one pull-request node (`main.py` lines 156-164). -/
def prRecord (pr : PullRequestNode) : Except TrackerError ContributionRecord :=
  match strptimeZ pr.createdAt with
  | none => Except.error (TrackerError.parseError pr.createdAt)
  | some t =>
    Except.ok { type := ContribType.pullRequest, title := pr.title,
                repository := pr.repoName, status := pr.state, url := pr.url,
                date := formatDate t.year t.month t.day }

/-- The pull-request loop of `process_contributions`. -/
def prRecords : List PullRequestNode → Except TrackerError (List ContributionRecord)
  | [] => Except.ok []
  | pr :: rest =>
    match prRecord pr with
    | Except.error e => Except.error e
    | Except.ok r =>
      match prRecords rest with
      | Except.error e => Except.error e
      | Except.ok rs => Except.ok (r :: rs)

/-- Normalization of one issue node (`main.py` lines 167-175). -/
def issueRecord (iss : IssueNode) : Except TrackerError ContributionRecord :=
  match strptimeZ iss.createdAt with
  | none => Except.error (TrackerError.parseError iss.createdAt)
  | some t =>
    Except.ok { type := ContribType.issue, title := iss.title,
                repository := iss.repoName, status := iss.state, url := iss.url,
                date := formatDate t.year t.month t.day }

/-- The issue loop of `process_contributions`. -/
def issueRecords : List IssueNode → Except TrackerError (List ContributionRecord)
  | [] => Except.ok []
  | iss :: rest =>
    match issueRecord iss with
    | Except.error e => Except.error e
    | Except.ok r =>
      match issueRecords rest with
      | Except.error e => Except.error e
      | Except.ok rs => Except.ok (r :: rs)

/-- Normalization of one commit occurrence (`main.py` lines 179-187): one
record per occurrence, with a synthesized title and constant status. -/
def commitRecord (repoName : String) (c : CommitOccurrence) :
    Except TrackerError ContributionRecord :=
  match strptimeZ c.occurredAt with
  | none => Except.error (TrackerError.parseError c.occurredAt)
  | some t =>
    Except.ok { type := ContribType.commit,
                title := Nat.repr c.commitCount ++ " commits to " ++ repoName,
                repository := repoName, status := "Committed", url := c.url,
                date := formatDate t.year t.month t.day }

/-- The inner commit loop of `process_contributions`, over one repository. -/
def commitRecordsOfRepo (repoName : String) :
    List CommitOccurrence → Except TrackerError (List ContributionRecord)
  | [] => Except.ok []
  | c :: rest =>
    match commitRecord repoName c with
    | Except.error e => Except.error e
    | Except.ok r =>
      match commitRecordsOfRepo repoName rest with
      | Except.error e => Except.error e
      | Except.ok rs => Except.ok (r :: rs)

/-- The outer commit loop of `process_contributions` (`main.py` lines 178-187). -/
def commitRecords : List CommitRepo → Except TrackerError (List ContributionRecord)
  | [] => Except.ok []
  | repo :: rest =>
    match commitRecordsOfRepo repo.repoName repo.occurrences with
    | Except.error e => Except.error e
    | Except.ok rs =>
      match commitRecords rest with
      | Except.error e => Except.error e
      | Except.ok rs' => Except.ok (rs ++ rs')

/-- The `contributions` list of `process_contributions` as built before the
final `sorted` call: pull-request records, then issue records, then commit
records, in source order. -/
def rawRecords (agg : Aggregate) : Except TrackerError (List ContributionRecord) :=
  match prRecords agg.prNodes with
  | Except.error e => Except.error e
  | Except.ok prs =>
    match issueRecords agg.issueNodes with
    | Except.error e => Except.error e
    | Except.ok iss =>
      match commitRecords agg.commitRepos with
      | Except.error e => Except.error e
      | Except.ok cs => Except.ok (prs ++ iss ++ cs)

/-- `process_contributions` (`main.py` lines 151-189): build the records and
return them sorted by date descending with Python's stable sort. -/
def process_contributions (agg : Aggregate) :
    Except TrackerError (List ContributionRecord) :=
  match rawRecords agg with
  | Except.error e => Except.error e
  | Except.ok rs => Except.ok (sortRecords rs)

/-- First non-empty list among a list of lists (empty when all are empty):
the value the set-once `if not ...` updates of the fetch loop leave behind. -/
def firstNonempty : List (List α) → List α
  | [] => []
  | l :: ls => if l.isEmpty then firstNonempty ls else l

/-- A complete successful page chain as a well-behaved server would return
it: at least one page, no page carries an `errors` list, every page but the
last reports `hasNextPage = true`, and the last reports `false`. -/
def wellFormedRun : List Page → Bool
  | [] => false
  | [p] => (p.errors == none) && !p.prPageInfo.hasNextPage
  | p :: q :: rest =>
    (p.errors == none) && p.prPageInfo.hasNextPage && wellFormedRun (q :: rest)

/-- Sum of the per-page pull-request batch sizes. -/
def pageBatchTotal (pages : List Page) : Nat :=
  (pages.map (fun p => p.prNodes.length)).sum

/-- Total number of commit occurrences across the per-repository batches. -/
def occTotal (rs : List CommitRepo) : Nat :=
  (rs.map (fun r => r.occurrences.length)).sum

/-- Every timestamp string the normalizer parses, in normalization order. -/
def aggTimestamps (agg : Aggregate) : List String :=
  agg.prNodes.map PullRequestNode.createdAt ++
    agg.issueNodes.map IssueNode.createdAt ++
    (agg.commitRepos.map (fun r => r.occurrences.map CommitOccurrence.occurredAt)).flatten

/-- Reads a leading run of decimal digits, accumulating their value. -/
def readNat (acc : Nat) : List Char → Nat × List Char
  | [] => (acc, [])
  | c :: rest =>
    if c.isDigit then readNat (acc * 10 + digitVal c) rest else (acc, c :: rest)

/-- Numeric day-precision value `year·10000 + month·100 + day` of a date
string of the shape produced by `formatDate`; its order is the chronological
order of day-precision dates. -/
def dateNum (s : String) : Nat :=
  match readNat 0 s.data with
  | (y, '-' :: rest2) =>
    (match readNat 0 rest2 with
     | (m, '-' :: rest4) => y * 10000 + m * 100 + (readNat 0 rest4).1
     | _ => 0)
  | _ => 0

/-- Modelled from the spec's words: a timestamp "of the form
`YYYY-MM-DDTHH:MM:SSZ`", read as the literal shape — four digits, a dash,
two digits, a dash, two digits, `T`, two digits, colon, two digits, colon,
two digits, `Z`. -/
def specShapeTimestamp (s : String) : Bool :=
  match s.data with
  | [y1, y2, y3, y4, '-', m1, m2, '-', d1, d2, 'T',
     h1, h2, ':', mi1, mi2, ':', s1, s2, 'Z'] =>
    y1.isDigit && y2.isDigit && y3.isDigit && y4.isDigit &&
      m1.isDigit && m2.isDigit && d1.isDigit && d2.isDigit &&
      h1.isDigit && h2.isDigit && mi1.isDigit && mi2.isDigit &&
      s1.isDigit && s2.isDigit
  | _ => false

/-! ### Concrete fixtures for witnesses and counterexamples -/

/-- A resolution response carrying an organization id. -/
def orgRespOk : OrgLookupResponse := ⟨some ⟨some (some ⟨"ORGID"⟩)⟩⟩

/-- A resolution response whose `organization` field is null. -/
def orgRespNullOrg : OrgLookupResponse := ⟨some ⟨some none⟩⟩

def prNodeA : PullRequestNode :=
  ⟨"Add parser", "https://example.com/pr/1", "MERGED", "alpha", "2024-01-10T12:00:00Z"⟩

def prNodeB : PullRequestNode :=
  ⟨"Fix bug", "https://example.com/pr/2", "OPEN", "beta", "2024-01-05T01:02:03Z"⟩

def issueNodeA : IssueNode :=
  ⟨"Crash on start", "https://example.com/issue/3", "CLOSED", "alpha", "2024-01-08T00:00:00Z"⟩

def occA : CommitOccurrence := ⟨3, "2024-01-07T00:00:00Z", "https://example.com/c/4"⟩

def commitRepoA : CommitRepo := ⟨"alpha", [occA]⟩

/-- First page of a three-page run; its issue and commit lists are empty. -/
def pageOne : Page := ⟨none, 2, [prNodeA], ⟨true, some "CUR1"⟩, [], []⟩

/-- Second page; it carries non-empty issue and commit lists. -/
def pageTwo : Page := ⟨none, 2, [prNodeB], ⟨true, some "CUR2"⟩, [issueNodeA], [commitRepoA]⟩

/-- Final page of the run (`hasNextPage = false`). -/
def pageEnd : Page := ⟨none, 2, [], ⟨false, none⟩, [], []⟩

/-- A page whose body carries an `errors` list. -/
def pageErr : Page := ⟨some "boom", 0, [], ⟨false, none⟩, [], []⟩

/-- The single-page scenario of the spec: two pull requests, one issue, and
one commit batch. -/
def aggScenario : Aggregate := ⟨[prNodeA, prNodeB], [issueNodeA], [commitRepoA]⟩

def recA : ContributionRecord :=
  ⟨ContribType.pullRequest, "Add parser", "alpha", "MERGED",
   "https://example.com/pr/1", "2024-01-10"⟩

def recB : ContributionRecord :=
  ⟨ContribType.pullRequest, "Fix bug", "beta", "OPEN",
   "https://example.com/pr/2", "2024-01-05"⟩

def recI : ContributionRecord :=
  ⟨ContribType.issue, "Crash on start", "alpha", "CLOSED",
   "https://example.com/issue/3", "2024-01-08"⟩

def recC : ContributionRecord :=
  ⟨ContribType.commit, "3 commits to alpha", "alpha", "Committed",
   "https://example.com/c/4", "2024-01-07"⟩

/-- `rawRecords aggScenario` before sorting. -/
def rawScenario : List ContributionRecord := [recA, recB, recI, recC]

/-- `process_contributions aggScenario`: sorted by date descending. -/
def outScenario : List ContributionRecord := [recA, recI, recC, recB]

def prNodeMonth13 : PullRequestNode :=
  ⟨"Bad month", "https://example.com/pr/9", "OPEN", "gamma", "2024-13-01T00:00:00Z"⟩

/-- An aggregate whose only timestamp matches the literal spec shape but
names month 13. -/
def aggMonth13 : Aggregate := ⟨[prNodeMonth13], [], []⟩

def prNodeLoose : PullRequestNode :=
  ⟨"Loose ts", "https://example.com/pr/8", "OPEN", "delta", "2024-1-5T0:0:0Z"⟩

/-- An aggregate whose only timestamp uses one-digit fields. -/
def aggLoose : Aggregate := ⟨[prNodeLoose], [], []⟩

def prNodeYear5 : PullRequestNode :=
  ⟨"Ancient", "https://example.com/pr/7", "OPEN", "eps", "0005-01-02T00:00:00Z"⟩

/-- An aggregate mixing a year-5 timestamp with a year-2024 one. -/
def aggSmallYear : Aggregate := ⟨[prNodeYear5, prNodeA], [], []⟩

def recYear5 : ContributionRecord :=
  ⟨ContribType.pullRequest, "Ancient", "eps", "OPEN", "https://example.com/pr/7", "5-01-02"⟩

deriving instance DecidableEq for Except

/-! ### Order facts about Python string comparison -/

theorem strLtB_cons_eq (a b : Char) (as bs : List Char) :
    strLtB (a :: as) (b :: bs) =
      (if a.toNat < b.toNat then true
       else if b.toNat < a.toNat then false
       else strLtB as bs) := rfl

theorem strLtB_self : ∀ l : List Char, strLtB l l = false
  | [] => rfl
  | a :: as => by
    rw [strLtB_cons_eq, if_neg (Nat.lt_irrefl _), if_neg (Nat.lt_irrefl _)]
    exact strLtB_self as

theorem strLtB_asymm : ∀ (x y : List Char), strLtB x y = true → strLtB y x = false
  | [], [] => by simp [strLtB]
  | [], _ :: _ => by simp [strLtB]
  | _ :: _, [] => by simp [strLtB]
  | a :: as, b :: bs => by
    rw [strLtB_cons_eq, strLtB_cons_eq]
    rcases Nat.lt_trichotomy a.toNat b.toNat with h | h | h
    · intro _
      rw [if_neg (by omega), if_pos h]
    · rw [if_neg (by omega), if_neg (by omega), if_neg (by omega), if_neg (by omega)]
      exact strLtB_asymm as bs
    · rw [if_neg (by omega), if_pos h]
      intro hfalse
      cases hfalse

theorem strLtB_or : ∀ (x z : List Char), strLtB x z = true →
    ∀ (y : List Char), strLtB x y = true ∨ strLtB y z = true
  | [], [], h, _ => by cases h
  | [], _ :: _, _, [] => Or.inr (by simp [strLtB])
  | [], _ :: _, _, _ :: _ => Or.inl (by simp [strLtB])
  | _ :: _, [], h, _ => by cases h
  | a :: as, c :: cs, h, [] => Or.inr (by simp [strLtB])
  | a :: as, c :: cs, h, b :: bs => by
    rw [strLtB_cons_eq] at h
    rw [strLtB_cons_eq, strLtB_cons_eq]
    rcases Nat.lt_trichotomy a.toNat b.toNat with h1 | h1 | h1
    · exact Or.inl (by rw [if_pos h1])
    · rcases Nat.lt_trichotomy b.toNat c.toNat with h2 | h2 | h2
      · exact Or.inr (by rw [if_pos h2])
      · rw [if_neg (by omega), if_neg (by omega)] at h
        rcases strLtB_or as cs h bs with h3 | h3
        · exact Or.inl (by rw [if_neg (by omega), if_neg (by omega)]; exact h3)
        · exact Or.inr (by rw [if_neg (by omega), if_neg (by omega)]; exact h3)
      · rw [if_neg (by omega), if_pos (by omega)] at h
        cases h
    · right
      by_cases hbc : b.toNat < c.toNat
      · rw [if_pos hbc]
      · by_cases hac : a.toNat < c.toNat
        · rw [if_pos (by omega)]
        · rw [if_neg hac, if_pos (by omega)] at h
          cases h

theorem sortKeyLe_trans (a b c : ContributionRecord)
    (h1 : sortKeyLe a b = true) (h2 : sortKeyLe b c = true) : sortKeyLe a c = true := by
  simp only [sortKeyLe, pyStrLt, Bool.not_eq_true'] at h1 h2 ⊢
  by_contra hc
  rw [Bool.not_eq_false] at hc
  rcases strLtB_or _ _ hc b.date.data with h | h
  · rw [h1] at h
    cases h
  · rw [h2] at h
    cases h

theorem sortKeyLe_total (a b : ContributionRecord) :
    (sortKeyLe a b || sortKeyLe b a) = true := by
  simp only [sortKeyLe, pyStrLt]
  by_cases h : strLtB a.date.data b.date.data = true
  · rw [strLtB_asymm _ _ h]
    simp
  · rw [Bool.not_eq_true] at h
    rw [h]
    simp

/-! ### The stable descending sort -/

theorem mem_insertDesc (r x : ContributionRecord) :
    ∀ l, x ∈ insertDesc r l ↔ x = r ∨ x ∈ l
  | [] => by simp [insertDesc]
  | y :: ys => by
    by_cases h : pyStrLt r.date y.date = true
    · simp only [insertDesc, if_pos h, List.mem_cons, mem_insertDesc r x ys]
      tauto
    · simp only [insertDesc, if_neg h, List.mem_cons]

theorem insertDesc_perm (r : ContributionRecord) :
    ∀ l, (insertDesc r l).Perm (r :: l)
  | [] => List.Perm.refl _
  | y :: ys => by
    by_cases h : pyStrLt r.date y.date = true
    · rw [insertDesc, if_pos h]
      exact ((insertDesc_perm r ys).cons y).trans (List.Perm.swap r y ys)
    · rw [insertDesc, if_neg h]

theorem sortRecords_perm : ∀ l, (sortRecords l).Perm l
  | [] => List.Perm.refl _
  | r :: rest => by
    rw [sortRecords]
    exact (insertDesc_perm r (sortRecords rest)).trans ((sortRecords_perm rest).cons r)

theorem sortRecords_length (l : List ContributionRecord) :
    (sortRecords l).length = l.length := (sortRecords_perm l).length_eq

theorem pairwise_insertDesc (r : ContributionRecord) :
    ∀ l, l.Pairwise (fun a b => sortKeyLe a b = true) →
      (insertDesc r l).Pairwise (fun a b => sortKeyLe a b = true)
  | [], _ => by simp [insertDesc]
  | x :: xs, h => by
    rcases List.pairwise_cons.mp h with ⟨hx, hxs⟩
    by_cases hlt : pyStrLt r.date x.date = true
    · rw [insertDesc, if_pos hlt]
      refine List.pairwise_cons.mpr ⟨?_, pairwise_insertDesc r xs hxs⟩
      intro y hy
      rcases (mem_insertDesc r y xs).mp hy with rfl | hy'
      · simp only [sortKeyLe, pyStrLt]
        rw [strLtB_asymm _ _ hlt]
        rfl
      · exact hx y hy'
    · rw [insertDesc, if_neg hlt]
      rw [Bool.not_eq_true] at hlt
      have hrx : sortKeyLe r x = true := by
        simp only [sortKeyLe]
        rw [hlt]
        rfl
      refine List.pairwise_cons.mpr ⟨?_, h⟩
      intro y hy
      rcases List.mem_cons.mp hy with rfl | hy'
      · exact hrx
      · exact sortKeyLe_trans r x y hrx (hx y hy')

theorem sortRecords_sorted :
    ∀ l, (sortRecords l).Pairwise (fun a b => sortKeyLe a b = true)
  | [] => by simp [sortRecords]
  | r :: rest => by
    rw [sortRecords]
    exact pairwise_insertDesc r _ (sortRecords_sorted rest)

theorem filter_insertDesc_ne (r : ContributionRecord) (s : String)
    (hr : (r.date == s) = false) :
    ∀ l, (insertDesc r l).filter (fun x => x.date == s) =
      l.filter (fun x => x.date == s)
  | [] => by simp [insertDesc, hr]
  | x :: xs => by
    by_cases hlt : pyStrLt r.date x.date = true
    · rw [insertDesc, if_pos hlt, List.filter_cons, List.filter_cons,
        filter_insertDesc_ne r s hr xs]
    · rw [insertDesc, if_neg hlt, List.filter_cons, hr]
      simp

theorem filter_insertDesc_eq (r : ContributionRecord) (s : String)
    (hr : (r.date == s) = true) :
    ∀ l, (insertDesc r l).filter (fun x => x.date == s) =
      r :: l.filter (fun x => x.date == s)
  | [] => by simp [insertDesc, hr]
  | x :: xs => by
    by_cases hlt : pyStrLt r.date x.date = true
    · have hrs : r.date = s := by
        simpa using hr
      have hxs : (x.date == s) = false := by
        rw [beq_eq_false_iff_ne]
        intro hxe
        rw [hxe, ← hrs] at hlt
        rw [pyStrLt, strLtB_self] at hlt
        cases hlt
      rw [insertDesc, if_pos hlt, List.filter_cons, hxs, List.filter_cons, hxs]
      simp only [Bool.false_eq_true, if_false]
      exact filter_insertDesc_eq r s hr xs
    · rw [insertDesc, if_neg hlt, List.filter_cons, hr]
      simp

theorem sortRecords_filter (s : String) :
    ∀ l, (sortRecords l).filter (fun x => x.date == s) =
      l.filter (fun x => x.date == s)
  | [] => rfl
  | r :: rest => by
    rw [sortRecords, List.filter_cons]
    by_cases hr : (r.date == s) = true
    · rw [filter_insertDesc_eq r s hr, sortRecords_filter s rest, hr]
      rfl
    · rw [Bool.not_eq_true] at hr
      rw [filter_insertDesc_ne r s hr, sortRecords_filter s rest, hr]
      rfl

/-! ### The three record builders -/

theorem prRecord_ok_iff (n : PullRequestNode) :
    (∃ r, prRecord n = Except.ok r) ↔ (strptimeZ n.createdAt).isSome = true := by
  rw [prRecord]
  cases strptimeZ n.createdAt with
  | none => simp
  | some t => simp

theorem prRecord_fields (n : PullRequestNode) (r : ContributionRecord)
    (h : prRecord n = Except.ok r) :
    r.type = ContribType.pullRequest ∧
      ∃ t, strptimeZ n.createdAt = some t ∧ r.date = formatDate t.year t.month t.day := by
  rw [prRecord] at h
  cases ht : strptimeZ n.createdAt with
  | none => rw [ht] at h; cases h
  | some t =>
    rw [ht] at h
    cases h
    exact ⟨rfl, t, rfl, rfl⟩

theorem prRecords_length : ∀ (ns : List PullRequestNode) (rs : List ContributionRecord),
    prRecords ns = Except.ok rs → rs.length = ns.length
  | [], rs, h => by
    rw [prRecords] at h
    cases h
    rfl
  | n :: ns, rs, h => by
    rw [prRecords] at h
    cases h1 : prRecord n with
    | error e => rw [h1] at h; cases h
    | ok r =>
      rw [h1] at h
      cases h2 : prRecords ns with
      | error e => rw [h2] at h; cases h
      | ok rs' =>
        rw [h2] at h
        cases h
        simp [prRecords_length ns rs' h2]

theorem prRecords_isOk : ∀ ns : List PullRequestNode,
    (∃ rs, prRecords ns = Except.ok rs) ↔
      ∀ n ∈ ns, (strptimeZ n.createdAt).isSome = true
  | [] => by simp [prRecords]
  | n :: ns => by
    constructor
    · rintro ⟨rs, h⟩ m hm
      rw [prRecords] at h
      cases h1 : prRecord n with
      | error e => rw [h1] at h; cases h
      | ok r =>
        rw [h1] at h
        cases h2 : prRecords ns with
        | error e => rw [h2] at h; cases h
        | ok rs' =>
          rcases List.mem_cons.mp hm with rfl | hm'
          · exact (prRecord_ok_iff m).mp ⟨r, h1⟩
          · exact ((prRecords_isOk ns).mp ⟨rs', h2⟩) m hm'
    · intro hall
      have h1 : (strptimeZ n.createdAt).isSome = true := hall n (List.mem_cons_self n ns)
      rcases (prRecord_ok_iff n).mpr h1 with ⟨r, hr⟩
      rcases (prRecords_isOk ns).mpr (fun m hm => hall m (List.mem_cons_of_mem n hm)) with ⟨rs, hrs⟩
      exact ⟨r :: rs, by rw [prRecords, hr, hrs]⟩

theorem prRecords_mem : ∀ (ns : List PullRequestNode) (rs : List ContributionRecord),
    prRecords ns = Except.ok rs → ∀ r ∈ rs, ∃ n ∈ ns, prRecord n = Except.ok r
  | [], rs, h => by
    rw [prRecords] at h
    cases h
    simp
  | n :: ns, rs, h => by
    rw [prRecords] at h
    cases h1 : prRecord n with
    | error e => rw [h1] at h; cases h
    | ok r =>
      rw [h1] at h
      cases h2 : prRecords ns with
      | error e => rw [h2] at h; cases h
      | ok rs' =>
        rw [h2] at h
        cases h
        intro x hx
        rcases List.mem_cons.mp hx with rfl | hx'
        · exact ⟨n, List.mem_cons_self n ns, h1⟩
        · rcases prRecords_mem ns rs' h2 x hx' with ⟨m, hm, hmx⟩
          exact ⟨m, List.mem_cons_of_mem n hm, hmx⟩

theorem issueRecord_ok_iff (n : IssueNode) :
    (∃ r, issueRecord n = Except.ok r) ↔ (strptimeZ n.createdAt).isSome = true := by
  rw [issueRecord]
  cases strptimeZ n.createdAt with
  | none => simp
  | some t => simp

theorem issueRecord_fields (n : IssueNode) (r : ContributionRecord)
    (h : issueRecord n = Except.ok r) :
    r.type = ContribType.issue ∧
      ∃ t, strptimeZ n.createdAt = some t ∧ r.date = formatDate t.year t.month t.day := by
  rw [issueRecord] at h
  cases ht : strptimeZ n.createdAt with
  | none => rw [ht] at h; cases h
  | some t =>
    rw [ht] at h
    cases h
    exact ⟨rfl, t, rfl, rfl⟩

theorem issueRecords_length : ∀ (ns : List IssueNode) (rs : List ContributionRecord),
    issueRecords ns = Except.ok rs → rs.length = ns.length
  | [], rs, h => by
    rw [issueRecords] at h
    cases h
    rfl
  | n :: ns, rs, h => by
    rw [issueRecords] at h
    cases h1 : issueRecord n with
    | error e => rw [h1] at h; cases h
    | ok r =>
      rw [h1] at h
      cases h2 : issueRecords ns with
      | error e => rw [h2] at h; cases h
      | ok rs' =>
        rw [h2] at h
        cases h
        simp [issueRecords_length ns rs' h2]

theorem issueRecords_isOk : ∀ ns : List IssueNode,
    (∃ rs, issueRecords ns = Except.ok rs) ↔
      ∀ n ∈ ns, (strptimeZ n.createdAt).isSome = true
  | [] => by simp [issueRecords]
  | n :: ns => by
    constructor
    · rintro ⟨rs, h⟩ m hm
      rw [issueRecords] at h
      cases h1 : issueRecord n with
      | error e => rw [h1] at h; cases h
      | ok r =>
        rw [h1] at h
        cases h2 : issueRecords ns with
        | error e => rw [h2] at h; cases h
        | ok rs' =>
          rcases List.mem_cons.mp hm with rfl | hm'
          · exact (issueRecord_ok_iff m).mp ⟨r, h1⟩
          · exact ((issueRecords_isOk ns).mp ⟨rs', h2⟩) m hm'
    · intro hall
      have h1 : (strptimeZ n.createdAt).isSome = true := hall n (List.mem_cons_self n ns)
      rcases (issueRecord_ok_iff n).mpr h1 with ⟨r, hr⟩
      rcases (issueRecords_isOk ns).mpr (fun m hm => hall m (List.mem_cons_of_mem n hm)) with ⟨rs, hrs⟩
      exact ⟨r :: rs, by rw [issueRecords, hr, hrs]⟩

theorem issueRecords_mem : ∀ (ns : List IssueNode) (rs : List ContributionRecord),
    issueRecords ns = Except.ok rs → ∀ r ∈ rs, ∃ n ∈ ns, issueRecord n = Except.ok r
  | [], rs, h => by
    rw [issueRecords] at h
    cases h
    simp
  | n :: ns, rs, h => by
    rw [issueRecords] at h
    cases h1 : issueRecord n with
    | error e => rw [h1] at h; cases h
    | ok r =>
      rw [h1] at h
      cases h2 : issueRecords ns with
      | error e => rw [h2] at h; cases h
      | ok rs' =>
        rw [h2] at h
        cases h
        intro x hx
        rcases List.mem_cons.mp hx with rfl | hx'
        · exact ⟨n, List.mem_cons_self n ns, h1⟩
        · rcases issueRecords_mem ns rs' h2 x hx' with ⟨m, hm, hmx⟩
          exact ⟨m, List.mem_cons_of_mem n hm, hmx⟩

theorem commitRecord_ok_iff (rn : String) (c : CommitOccurrence) :
    (∃ r, commitRecord rn c = Except.ok r) ↔ (strptimeZ c.occurredAt).isSome = true := by
  rw [commitRecord]
  cases strptimeZ c.occurredAt with
  | none => simp
  | some t => simp

theorem commitRecord_fields (rn : String) (c : CommitOccurrence) (r : ContributionRecord)
    (h : commitRecord rn c = Except.ok r) :
    r.type = ContribType.commit ∧
      ∃ t, strptimeZ c.occurredAt = some t ∧ r.date = formatDate t.year t.month t.day := by
  rw [commitRecord] at h
  cases ht : strptimeZ c.occurredAt with
  | none => rw [ht] at h; cases h
  | some t =>
    rw [ht] at h
    cases h
    exact ⟨rfl, t, rfl, rfl⟩

theorem commitRecordsOfRepo_length : ∀ (rn : String) (cs : List CommitOccurrence)
    (rs : List ContributionRecord),
    commitRecordsOfRepo rn cs = Except.ok rs → rs.length = cs.length
  | rn, [], rs, h => by
    rw [commitRecordsOfRepo] at h
    cases h
    rfl
  | rn, c :: cs, rs, h => by
    rw [commitRecordsOfRepo] at h
    cases h1 : commitRecord rn c with
    | error e => rw [h1] at h; cases h
    | ok r =>
      rw [h1] at h
      cases h2 : commitRecordsOfRepo rn cs with
      | error e => rw [h2] at h; cases h
      | ok rs' =>
        rw [h2] at h
        cases h
        simp [commitRecordsOfRepo_length rn cs rs' h2]

theorem commitRecordsOfRepo_isOk : ∀ (rn : String) (cs : List CommitOccurrence),
    (∃ rs, commitRecordsOfRepo rn cs = Except.ok rs) ↔
      ∀ c ∈ cs, (strptimeZ c.occurredAt).isSome = true
  | rn, [] => by simp [commitRecordsOfRepo]
  | rn, c :: cs => by
    constructor
    · rintro ⟨rs, h⟩ m hm
      rw [commitRecordsOfRepo] at h
      cases h1 : commitRecord rn c with
      | error e => rw [h1] at h; cases h
      | ok r =>
        rw [h1] at h
        cases h2 : commitRecordsOfRepo rn cs with
        | error e => rw [h2] at h; cases h
        | ok rs' =>
          rcases List.mem_cons.mp hm with rfl | hm'
          · exact (commitRecord_ok_iff rn m).mp ⟨r, h1⟩
          · exact ((commitRecordsOfRepo_isOk rn cs).mp ⟨rs', h2⟩) m hm'
    · intro hall
      have h1 : (strptimeZ c.occurredAt).isSome = true := hall c (List.mem_cons_self c cs)
      rcases (commitRecord_ok_iff rn c).mpr h1 with ⟨r, hr⟩
      rcases (commitRecordsOfRepo_isOk rn cs).mpr
        (fun m hm => hall m (List.mem_cons_of_mem c hm)) with ⟨rs, hrs⟩
      exact ⟨r :: rs, by rw [commitRecordsOfRepo, hr, hrs]⟩

theorem commitRecordsOfRepo_mem : ∀ (rn : String) (cs : List CommitOccurrence)
    (rs : List ContributionRecord),
    commitRecordsOfRepo rn cs = Except.ok rs →
      ∀ r ∈ rs, ∃ c ∈ cs, commitRecord rn c = Except.ok r
  | rn, [], rs, h => by
    rw [commitRecordsOfRepo] at h
    cases h
    simp
  | rn, c :: cs, rs, h => by
    rw [commitRecordsOfRepo] at h
    cases h1 : commitRecord rn c with
    | error e => rw [h1] at h; cases h
    | ok r =>
      rw [h1] at h
      cases h2 : commitRecordsOfRepo rn cs with
      | error e => rw [h2] at h; cases h
      | ok rs' =>
        rw [h2] at h
        cases h
        intro x hx
        rcases List.mem_cons.mp hx with rfl | hx'
        · exact ⟨c, List.mem_cons_self c cs, h1⟩
        · rcases commitRecordsOfRepo_mem rn cs rs' h2 x hx' with ⟨m, hm, hmx⟩
          exact ⟨m, List.mem_cons_of_mem c hm, hmx⟩

theorem commitRecords_length : ∀ (repos : List CommitRepo) (rs : List ContributionRecord),
    commitRecords repos = Except.ok rs → rs.length = occTotal repos
  | [], rs, h => by
    rw [commitRecords] at h
    cases h
    rfl
  | repo :: repos, rs, h => by
    rw [commitRecords] at h
    cases h1 : commitRecordsOfRepo repo.repoName repo.occurrences with
    | error e => rw [h1] at h; cases h
    | ok rs1 =>
      rw [h1] at h
      cases h2 : commitRecords repos with
      | error e => rw [h2] at h; cases h
      | ok rs2 =>
        rw [h2] at h
        cases h
        rw [List.length_append, commitRecordsOfRepo_length _ _ _ h1,
          commitRecords_length repos rs2 h2]
        rfl

theorem commitRecords_isOk : ∀ repos : List CommitRepo,
    (∃ rs, commitRecords repos = Except.ok rs) ↔
      ∀ repo ∈ repos, ∀ c ∈ repo.occurrences, (strptimeZ c.occurredAt).isSome = true
  | [] => by simp [commitRecords]
  | repo :: repos => by
    constructor
    · rintro ⟨rs, h⟩ m hm
      rw [commitRecords] at h
      cases h1 : commitRecordsOfRepo repo.repoName repo.occurrences with
      | error e => rw [h1] at h; cases h
      | ok rs1 =>
        rw [h1] at h
        cases h2 : commitRecords repos with
        | error e => rw [h2] at h; cases h
        | ok rs2 =>
          rcases List.mem_cons.mp hm with rfl | hm'
          · exact (commitRecordsOfRepo_isOk m.repoName m.occurrences).mp ⟨rs1, h1⟩
          · exact ((commitRecords_isOk repos).mp ⟨rs2, h2⟩) m hm'
    · intro hall
      rcases (commitRecordsOfRepo_isOk repo.repoName repo.occurrences).mpr
        (hall repo (List.mem_cons_self repo repos)) with ⟨rs1, h1⟩
      rcases (commitRecords_isOk repos).mpr
        (fun m hm => hall m (List.mem_cons_of_mem repo hm)) with ⟨rs2, h2⟩
      exact ⟨rs1 ++ rs2, by rw [commitRecords, h1, h2]⟩

theorem commitRecords_mem : ∀ (repos : List CommitRepo) (rs : List ContributionRecord),
    commitRecords repos = Except.ok rs →
      ∀ r ∈ rs, ∃ repo ∈ repos, ∃ c ∈ repo.occurrences,
        commitRecord repo.repoName c = Except.ok r
  | [], rs, h => by
    rw [commitRecords] at h
    cases h
    simp
  | repo :: repos, rs, h => by
    rw [commitRecords] at h
    cases h1 : commitRecordsOfRepo repo.repoName repo.occurrences with
    | error e => rw [h1] at h; cases h
    | ok rs1 =>
      rw [h1] at h
      cases h2 : commitRecords repos with
      | error e => rw [h2] at h; cases h
      | ok rs2 =>
        rw [h2] at h
        cases h
        intro x hx
        rcases List.mem_append.mp hx with hx1 | hx2
        · rcases commitRecordsOfRepo_mem _ _ _ h1 x hx1 with ⟨c, hc, hcx⟩
          exact ⟨repo, List.mem_cons_self repo repos, c, hc, hcx⟩
        · rcases commitRecords_mem repos rs2 h2 x hx2 with ⟨m, hm, c, hc, hcx⟩
          exact ⟨m, List.mem_cons_of_mem repo hm, c, hc, hcx⟩

theorem rawRecords_eq (agg : Aggregate) (raw : List ContributionRecord)
    (h : rawRecords agg = Except.ok raw) :
    ∃ prs iss cs, prRecords agg.prNodes = Except.ok prs ∧
      issueRecords agg.issueNodes = Except.ok iss ∧
      commitRecords agg.commitRepos = Except.ok cs ∧ raw = prs ++ iss ++ cs := by
  rw [rawRecords] at h
  cases h1 : prRecords agg.prNodes with
  | error e => rw [h1] at h; cases h
  | ok prs =>
    rw [h1] at h
    cases h2 : issueRecords agg.issueNodes with
    | error e => rw [h2] at h; cases h
    | ok iss =>
      rw [h2] at h
      cases h3 : commitRecords agg.commitRepos with
      | error e => rw [h3] at h; cases h
      | ok cs =>
        rw [h3] at h
        cases h
        exact ⟨prs, iss, cs, rfl, rfl, rfl, rfl⟩

theorem rawRecords_isOk (agg : Aggregate) :
    (∃ raw, rawRecords agg = Except.ok raw) ↔
      ((∃ prs, prRecords agg.prNodes = Except.ok prs) ∧
       (∃ iss, issueRecords agg.issueNodes = Except.ok iss) ∧
       (∃ cs, commitRecords agg.commitRepos = Except.ok cs)) := by
  constructor
  · rintro ⟨raw, h⟩
    rcases rawRecords_eq agg raw h with ⟨prs, iss, cs, h1, h2, h3, _⟩
    exact ⟨⟨prs, h1⟩, ⟨iss, h2⟩, ⟨cs, h3⟩⟩
  · rintro ⟨⟨prs, h1⟩, ⟨iss, h2⟩, ⟨cs, h3⟩⟩
    exact ⟨prs ++ iss ++ cs, by rw [rawRecords, h1, h2, h3]⟩

theorem process_contributions_eq (agg : Aggregate) (out : List ContributionRecord)
    (h : process_contributions agg = Except.ok out) :
    ∃ raw, rawRecords agg = Except.ok raw ∧ out = sortRecords raw := by
  rw [process_contributions] at h
  cases h1 : rawRecords agg with
  | error e => rw [h1] at h; cases h
  | ok raw =>
    rw [h1] at h
    cases h
    exact ⟨raw, rfl, rfl⟩

theorem process_contributions_isOk (agg : Aggregate) :
    (process_contributions agg).isOk = true ↔ (∃ raw, rawRecords agg = Except.ok raw) := by
  rw [process_contributions]
  cases h1 : rawRecords agg with
  | error e => simp [Except.isOk, Except.toBool]
  | ok raw => simp [Except.isOk, Except.toBool]

theorem mem_aggTimestamps (agg : Aggregate) (ts : String) :
    ts ∈ aggTimestamps agg ↔
      ((∃ n ∈ agg.prNodes, n.createdAt = ts) ∨
       (∃ n ∈ agg.issueNodes, n.createdAt = ts) ∨
       (∃ repo ∈ agg.commitRepos, ∃ c ∈ repo.occurrences, c.occurredAt = ts)) := by
  simp only [aggTimestamps, List.mem_append, List.mem_map, List.mem_flatten]
  constructor
  · rintro ((⟨n, hn, rfl⟩ | ⟨n, hn, rfl⟩) | ⟨l, ⟨repo, hrepo, rfl⟩, hts⟩)
    · exact Or.inl ⟨n, hn, rfl⟩
    · exact Or.inr (Or.inl ⟨n, hn, rfl⟩)
    · rcases List.mem_map.mp hts with ⟨c, hc, rfl⟩
      exact Or.inr (Or.inr ⟨repo, hrepo, c, hc, rfl⟩)
  · rintro (⟨n, hn, rfl⟩ | ⟨n, hn, rfl⟩ | ⟨repo, hrepo, c, hc, rfl⟩)
    · exact Or.inl (Or.inl ⟨n, hn, rfl⟩)
    · exact Or.inl (Or.inr ⟨n, hn, rfl⟩)
    · exact Or.inr ⟨repo.occurrences.map CommitOccurrence.occurredAt, ⟨repo, hrepo, rfl⟩,
        List.mem_map.mpr ⟨c, hc, rfl⟩⟩

theorem rawRecords_provenance (agg : Aggregate) (raw : List ContributionRecord)
    (h : rawRecords agg = Except.ok raw) :
    ∀ r ∈ raw, ∃ ts ∈ aggTimestamps agg, ∃ t, strptimeZ ts = some t ∧
      r.date = formatDate t.year t.month t.day := by
  rcases rawRecords_eq agg raw h with ⟨prs, iss, cs, h1, h2, h3, rfl⟩
  intro r hr
  rcases List.mem_append.mp hr with hr' | hrc
  · rcases List.mem_append.mp hr' with hrp | hri
    · rcases prRecords_mem _ _ h1 r hrp with ⟨n, hn, hok⟩
      rcases prRecord_fields n r hok with ⟨_, t, ht, hd⟩
      exact ⟨n.createdAt, (mem_aggTimestamps agg _).mpr (Or.inl ⟨n, hn, rfl⟩), t, ht, hd⟩
    · rcases issueRecords_mem _ _ h2 r hri with ⟨n, hn, hok⟩
      rcases issueRecord_fields n r hok with ⟨_, t, ht, hd⟩
      exact ⟨n.createdAt, (mem_aggTimestamps agg _).mpr (Or.inr (Or.inl ⟨n, hn, rfl⟩)), t, ht, hd⟩
  · rcases commitRecords_mem _ _ h3 r hrc with ⟨repo, hrepo, c, hc, hok⟩
    rcases commitRecord_fields repo.repoName c r hok with ⟨_, t, ht, hd⟩
    exact ⟨c.occurredAt,
      (mem_aggTimestamps agg _).mpr (Or.inr (Or.inr ⟨repo, hrepo, c, hc, rfl⟩)), t, ht, hd⟩

/-! ### The pagination loop -/

theorem firstNonempty_single (l : List α) : firstNonempty [l] = l := by
  cases l <;> simp [firstNonempty]

theorem firstNonempty_pair_cons (a b : List α) (ls : List (List α)) :
    firstNonempty (firstNonempty [a, b] :: ls) = firstNonempty (a :: b :: ls) := by
  by_cases ha : a.isEmpty <;> by_cases hb : b.isEmpty <;>
    simp [firstNonempty, ha, hb]

theorem ite_nil_self [DecidableEq α] (l : List α) :
    (if l = [] then ([] : List α) else l) = l := by
  split
  · simp [*]
  · rfl

theorem fetchLoop_cons_error (u o : String) (p : Page) (rest : List Page)
    (c : Option String) (agg : Aggregate) (m : String) (he : p.errors = some m) :
    fetchLoop u o (p :: rest) c agg =
      ([⟨u, o, c⟩], some (Except.error (TrackerError.apiError m))) := by
  simp [fetchLoop, he]

theorem fetchLoop_cons_next (u o : String) (p : Page) (rest : List Page)
    (c : Option String) (agg : Aggregate) (he : p.errors = none)
    (hn : p.prPageInfo.hasNextPage = true) :
    fetchLoop u o (p :: rest) c agg =
      (⟨u, o, c⟩ :: (fetchLoop u o rest p.prPageInfo.endCursor (applyPage agg p)).1,
       (fetchLoop u o rest p.prPageInfo.endCursor (applyPage agg p)).2) := by
  simp [fetchLoop, he, hn]

theorem fetchLoop_cons_last (u o : String) (p : Page) (rest : List Page)
    (c : Option String) (agg : Aggregate) (he : p.errors = none)
    (hn : p.prPageInfo.hasNextPage = false) :
    fetchLoop u o (p :: rest) c agg =
      ([⟨u, o, c⟩], some (Except.ok (applyPage agg p))) := by
  simp [fetchLoop, he, hn]

theorem applyPage_eq (agg : Aggregate) (p : Page) :
    applyPage agg p =
      { prNodes := agg.prNodes ++ p.prNodes,
        issueNodes := firstNonempty [agg.issueNodes, p.issueNodes],
        commitRepos := firstNonempty [agg.commitRepos, p.commitRepos] } := by
  rw [applyPage]
  by_cases h1 : agg.issueNodes.isEmpty <;> by_cases h2 : agg.commitRepos.isEmpty <;>
    simp [h1, h2, firstNonempty, firstNonempty_single, ite_nil_self]

theorem fetchLoop_run (u o : String) :
    ∀ (pages : List Page) (c : Option String) (agg : Aggregate),
    wellFormedRun pages = true →
    (fetchLoop u o pages c agg).2 = some (Except.ok
      { prNodes := agg.prNodes ++ (pages.map Page.prNodes).flatten,
        issueNodes := firstNonempty (agg.issueNodes :: pages.map Page.issueNodes),
        commitRepos := firstNonempty (agg.commitRepos :: pages.map Page.commitRepos) })
  | [], c, agg, h => by cases h
  | [p], c, agg, h => by
    rw [wellFormedRun] at h
    simp only [Bool.and_eq_true, beq_iff_eq, Bool.not_eq_true'] at h
    obtain ⟨he, hn⟩ := h
    rw [fetchLoop_cons_last u o p [] c agg he hn]
    simp [applyPage_eq, firstNonempty_pair_cons]
  | p :: q :: rest, c, agg, h => by
    rw [wellFormedRun] at h
    simp only [Bool.and_eq_true, beq_iff_eq] at h
    obtain ⟨⟨he, hn⟩, hrun⟩ := h
    have hrec := fetchLoop_run u o (q :: rest) p.prPageInfo.endCursor (applyPage agg p) hrun
    rw [fetchLoop_cons_next u o p (q :: rest) c agg he hn]
    rw [show ((⟨u, o, c⟩ :: (fetchLoop u o (q :: rest) p.prPageInfo.endCursor (applyPage agg p)).1,
        (fetchLoop u o (q :: rest) p.prPageInfo.endCursor (applyPage agg p)).2) :
        List QueryVars × Option (Except TrackerError Aggregate)).2 =
      (fetchLoop u o (q :: rest) p.prPageInfo.endCursor (applyPage agg p)).2 from rfl]
    rw [hrec]
    simp [applyPage_eq, firstNonempty_pair_cons, List.append_assoc]

theorem fetchLoop_trace_cons (u o : String) (pages : List Page) (c : Option String)
    (agg : Aggregate) :
    ∃ t, (fetchLoop u o pages c agg).1 = ⟨u, o, c⟩ :: t := by
  cases pages with
  | nil => exact ⟨[], rfl⟩
  | cons p rest =>
    cases he : p.errors with
    | some e => exact ⟨[], by simp [fetchLoop, he]⟩
    | none =>
      cases hn : p.prPageInfo.hasNextPage with
      | true =>
        exact ⟨(fetchLoop u o rest p.prPageInfo.endCursor (applyPage agg p)).1,
          by simp [fetchLoop, he, hn]⟩
      | false => exact ⟨[], by simp [fetchLoop, he, hn]⟩

theorem fetchLoop_cursor (u o : String) :
    ∀ (front : List Page) (p : Page) (rest : List Page) (c : Option String) (agg : Aggregate),
    (∀ q ∈ front, q.errors = none ∧ q.prPageInfo.hasNextPage = true) →
    p.errors = none →
    ((p.prPageInfo.hasNextPage = true →
        ((fetchLoop u o (front ++ p :: rest) c agg).1)[front.length + 1]? =
          some ⟨u, o, p.prPageInfo.endCursor⟩) ∧
     (p.prPageInfo.hasNextPage = false →
        (fetchLoop u o (front ++ p :: rest) c agg).1.length = front.length + 1))
  | [], p, rest, c, agg, hfront, hp => by
    constructor
    · intro hnext
      simp only [List.nil_append, fetchLoop, hp, hnext]
      rcases fetchLoop_trace_cons u o rest p.prPageInfo.endCursor (applyPage agg p) with ⟨t, ht⟩
      simp [ht]
    · intro hnext
      simp [fetchLoop, hp, hnext]
  | q :: front, p, rest, c, agg, hfront, hp => by
    obtain ⟨hqe, hqn⟩ := hfront q (List.mem_cons_self q front)
    have IH := fetchLoop_cursor u o front p rest q.prPageInfo.endCursor (applyPage agg q)
      (fun x hx => hfront x (List.mem_cons_of_mem q hx)) hp
    constructor
    · intro hnext
      simpa [fetchLoop, hqe, hqn] using IH.1 hnext
    · intro hnext
      simpa [fetchLoop, hqe, hqn] using IH.2 hnext

theorem fetchLoop_error (u o : String) :
    ∀ (front : List Page) (p : Page) (rest : List Page) (c : Option String) (agg : Aggregate)
    (m : String),
    (∀ q ∈ front, q.errors = none ∧ q.prPageInfo.hasNextPage = true) →
    p.errors = some m →
    (fetchLoop u o (front ++ p :: rest) c agg).2 =
      some (Except.error (TrackerError.apiError m))
  | [], p, rest, c, agg, m, hfront, hp => by
    simp [fetchLoop, hp]
  | q :: front, p, rest, c, agg, m, hfront, hp => by
    obtain ⟨hqe, hqn⟩ := hfront q (List.mem_cons_self q front)
    simp only [List.cons_append, fetchLoop, hqe, hqn]
    exact fetchLoop_error u o front p rest q.prPageInfo.endCursor (applyPage agg q) m
      (fun x hx => hfront x (List.mem_cons_of_mem q hx)) hp

theorem fetchLoop_no_apiError (u o : String) :
    ∀ (pages : List Page) (c : Option String) (agg : Aggregate),
    (∀ p ∈ pages, p.errors = none) →
    ∀ m, (fetchLoop u o pages c agg).2 ≠ some (Except.error (TrackerError.apiError m))
  | [], c, agg, hclean, m => by simp [fetchLoop]
  | p :: rest, c, agg, hclean, m => by
    have hpe := hclean p (List.mem_cons_self p rest)
    cases hn : p.prPageInfo.hasNextPage with
    | true =>
      simp only [fetchLoop, hpe, hn]
      exact fetchLoop_no_apiError u o rest p.prPageInfo.endCursor (applyPage agg p)
        (fun x hx => hclean x (List.mem_cons_of_mem p hx)) m
    | false => simp [fetchLoop, hpe, hn]

/-! ### Digits, date formatting and the chronological order of date strings -/

theorem isDigit_toNat (c : Char) (h : c.isDigit = true) :
    48 ≤ c.toNat ∧ c.toNat ≤ 57 := by
  simp [Char.isDigit] at h
  exact h

theorem digitVal_le (c : Char) (h : c.isDigit = true) : digitVal c ≤ 9 := by
  obtain ⟨h1, h2⟩ := isDigit_toNat c h
  rw [digitVal]
  omega

theorem digitChar_toNat (n : Nat) (h : n < 10) : (digitChar n).toNat = 48 + n := by
  interval_cases n <;> rfl

theorem digitChar_isDigit (n : Nat) (h : n < 10) : (digitChar n).isDigit = true := by
  interval_cases n <;> decide

theorem digitVal_digitChar (n : Nat) (h : n < 10) : digitVal (digitChar n) = n := by
  interval_cases n <;> decide

theorem strLtB_nil_nil_iff : (strLtB ([] : List Char) [] = true) ↔ False := by
  simp [strLtB]

theorem strLtB_same_cons (c : Char) (as bs : List Char) :
    (strLtB (c :: as) (c :: bs) = true) ↔ strLtB as bs = true := by
  rw [strLtB_cons_eq, if_neg (Nat.lt_irrefl _), if_neg (Nat.lt_irrefl _)]

theorem strLtB_digit_cons (x y : Nat) (hx : x < 10) (hy : y < 10) (as bs : List Char) :
    (strLtB (digitChar x :: as) (digitChar y :: bs) = true) ↔
      (x < y ∨ (x = y ∧ strLtB as bs = true)) := by
  rw [strLtB_cons_eq, digitChar_toNat x hx, digitChar_toNat y hy]
  rcases Nat.lt_trichotomy x y with h | h | h
  · rw [if_pos (by omega)]
    simp only [true_iff]
    exact Or.inl h
  · subst h
    rw [if_neg (by omega), if_neg (by omega)]
    simp
  · rw [if_neg (by omega), if_pos (by omega)]
    constructor
    · intro hfalse
      cases hfalse
    · rintro (h1 | ⟨h1, _⟩) <;> omega

theorem strLtB_digit_cons_mod (x y : Nat) (as bs : List Char) :
    (strLtB (digitChar (x % 10) :: as) (digitChar (y % 10) :: bs) = true) ↔
      (x % 10 < y % 10 ∨ (x % 10 = y % 10 ∧ strLtB as bs = true)) :=
  strLtB_digit_cons (x % 10) (y % 10) (Nat.mod_lt x (by omega)) (Nat.mod_lt y (by omega)) as bs

theorem yearChars_thousands (y : Nat) (h1 : 1000 ≤ y) :
    yearChars y = [digitChar (y / 1000 % 10), digitChar (y / 100 % 10),
      digitChar (y / 10 % 10), digitChar (y % 10)] := by
  rw [yearChars, if_neg (by omega), if_neg (by omega), if_neg (by omega)]

theorem formatDateChars_thousands (y m d : Nat) (h1 : 1000 ≤ y) :
    formatDateChars y m d =
      [digitChar (y / 1000 % 10), digitChar (y / 100 % 10), digitChar (y / 10 % 10),
       digitChar (y % 10), '-', digitChar (m / 10 % 10), digitChar (m % 10), '-',
       digitChar (d / 10 % 10), digitChar (d % 10)] := by
  rw [formatDateChars, yearChars_thousands y h1, pad2Chars, pad2Chars]
  rfl

set_option maxHeartbeats 800000 in
theorem lex8_iff (A1 B1 C1 D1 E1 F1 G1 H1 A2 B2 C2 D2 E2 F2 G2 H2 : Nat)
    (hA1 : A1 < 10) (hB1 : B1 < 10) (hC1 : C1 < 10) (hD1 : D1 < 10)
    (hE1 : E1 < 10) (hF1 : F1 < 10) (hG1 : G1 < 10) (hH1 : H1 < 10)
    (hA2 : A2 < 10) (hB2 : B2 < 10) (hC2 : C2 < 10) (hD2 : D2 < 10)
    (hE2 : E2 < 10) (hF2 : F2 < 10) (hG2 : G2 < 10) (hH2 : H2 < 10) :
    (A1 < A2 ∨ (A1 = A2 ∧ (B1 < B2 ∨ (B1 = B2 ∧ (C1 < C2 ∨ (C1 = C2 ∧
      (D1 < D2 ∨ (D1 = D2 ∧ (E1 < E2 ∨ (E1 = E2 ∧ (F1 < F2 ∨ (F1 = F2 ∧
        (G1 < G2 ∨ (G1 = G2 ∧ (H1 < H2 ∨ (H1 = H2 ∧ False)))))))))))))))) ↔
    ((A1 * 1000 + B1 * 100 + C1 * 10 + D1) * 10000 + (E1 * 10 + F1) * 100 + (G1 * 10 + H1) <
     (A2 * 1000 + B2 * 100 + C2 * 10 + D2) * 10000 + (E2 * 10 + F2) * 100 + (G2 * 10 + H2)) := by
  constructor
  · rintro (h | ⟨e1, h | ⟨e2, h | ⟨e3, h | ⟨e4, h | ⟨e5, h | ⟨e6, h | ⟨e7, h | ⟨e8, hf⟩⟩⟩⟩⟩⟩⟩⟩) <;>
      first
        | exact hf.elim
        | omega
  · intro h
    omega

theorem digitsPack_eq (y m d : Nat) (hy' : y ≤ 9999) :
    (y / 1000 % 10 * 1000 + y / 100 % 10 * 100 + y / 10 % 10 * 10 + y % 10) * 10000 +
      (m / 10 % 10 * 10 + m % 10) * 100 + (d / 10 % 10 * 10 + d % 10) =
    y * 10000 + m % 100 * 100 + d % 100 := by
  have s1 : y / 10 / 10 = y / 100 := by rw [Nat.div_div_eq_div_mul]
  have s2 : y / 100 / 10 = y / 1000 := by rw [Nat.div_div_eq_div_mul]
  omega

theorem strLtB_formatDate (y1 m1 d1 y2 m2 d2 : Nat)
    (hy1 : 1000 ≤ y1) (hy1' : y1 ≤ 9999) (hm1 : m1 ≤ 12) (hd1 : d1 ≤ 31)
    (hy2 : 1000 ≤ y2) (hy2' : y2 ≤ 9999) (hm2 : m2 ≤ 12) (hd2 : d2 ≤ 31) :
    (pyStrLt (formatDate y1 m1 d1) (formatDate y2 m2 d2) = true) ↔
      (y1 * 10000 + m1 * 100 + d1 < y2 * 10000 + m2 * 100 + d2) := by
  show (strLtB (formatDateChars y1 m1 d1) (formatDateChars y2 m2 d2) = true) ↔ _
  rw [formatDateChars_thousands y1 m1 d1 hy1, formatDateChars_thousands y2 m2 d2 hy2]
  simp only [strLtB_digit_cons_mod, strLtB_same_cons, strLtB_nil_nil_iff]
  rw [lex8_iff _ _ _ _ _ _ _ _ _ _ _ _ _ _ _ _
    (Nat.mod_lt _ (by omega)) (Nat.mod_lt _ (by omega)) (Nat.mod_lt _ (by omega))
    (Nat.mod_lt _ (by omega)) (Nat.mod_lt _ (by omega)) (Nat.mod_lt _ (by omega))
    (Nat.mod_lt _ (by omega)) (Nat.mod_lt _ (by omega)) (Nat.mod_lt _ (by omega))
    (Nat.mod_lt _ (by omega)) (Nat.mod_lt _ (by omega)) (Nat.mod_lt _ (by omega))
    (Nat.mod_lt _ (by omega)) (Nat.mod_lt _ (by omega)) (Nat.mod_lt _ (by omega))
    (Nat.mod_lt _ (by omega))]
  rw [digitsPack_eq y1 m1 d1 hy1', digitsPack_eq y2 m2 d2 hy2']
  rw [Nat.mod_eq_of_lt (show m1 < 100 by omega), Nat.mod_eq_of_lt (show m2 < 100 by omega),
    Nat.mod_eq_of_lt (show d1 < 100 by omega), Nat.mod_eq_of_lt (show d2 < 100 by omega)]

theorem readNat_digit (acc n : Nat) (h : n < 10) (rest : List Char) :
    readNat acc (digitChar n :: rest) = readNat (acc * 10 + n) rest := by
  rw [readNat, if_pos (digitChar_isDigit n h), digitVal_digitChar n h]

theorem readNat_digit_mod (acc k : Nat) (rest : List Char) :
    readNat acc (digitChar (k % 10) :: rest) = readNat (acc * 10 + k % 10) rest :=
  readNat_digit acc (k % 10) (Nat.mod_lt k (by omega)) rest

theorem readNat_dash (acc : Nat) (rest : List Char) :
    readNat acc ('-' :: rest) = (acc, '-' :: rest) := by
  rw [readNat, if_neg (by decide)]

theorem dateNum_formatDate (y m d : Nat) (hy : 1000 ≤ y) (hy' : y ≤ 9999)
    (hm : m ≤ 12) (hd : d ≤ 31) :
    dateNum (formatDate y m d) = y * 10000 + m * 100 + d := by
  have e1 : (formatDate y m d).data = formatDateChars y m d := rfl
  rw [dateNum, e1, formatDateChars_thousands y m d hy]
  rw [readNat_digit_mod, readNat_digit_mod, readNat_digit_mod, readNat_digit_mod, readNat_dash]
  simp only []
  rw [readNat_digit_mod, readNat_digit_mod, readNat_dash]
  simp only []
  rw [readNat_digit_mod, readNat_digit_mod]
  rw [readNat]
  simp only []
  omega

theorem daysInMonth_le (y m : Nat) : daysInMonth y m ≤ 31 := by
  rw [daysInMonth]
  split
  · split <;> omega
  · split <;> omega

theorem matchYear_le (cs : List Char) (y : Nat) (rest : List Char)
    (h : matchYear cs = some (y, rest)) : y ≤ 9999 := by
  rcases cs with _ | ⟨a, _ | ⟨b, _ | ⟨c, _ | ⟨d, rest'⟩⟩⟩⟩
  · simp [matchYear] at h
  · simp [matchYear] at h
  · simp [matchYear] at h
  · simp [matchYear] at h
  · rw [matchYear] at h
    by_cases hd : (a.isDigit && b.isDigit && c.isDigit && d.isDigit) = true
    · rw [if_pos hd] at h
      cases h
      simp only [Bool.and_eq_true] at hd
      obtain ⟨⟨⟨ha, hb⟩, hc⟩, hd2⟩ := hd
      have va := digitVal_le a ha
      have vb := digitVal_le b hb
      have vc := digitVal_le c hc
      have vd := digitVal_le d hd2
      omega
    · rw [if_neg hd] at h
      cases h

theorem timeRegexMatch_year (cs : List Char) (t : ParsedTime)
    (h : timeRegexMatch cs = some t) : t.year ≤ 9999 := by
  rw [timeRegexMatch] at h
  cases h1 : matchYear cs with
  | none => rw [h1] at h; cases h
  | some yr =>
    obtain ⟨y, cs1⟩ := yr
    simp only [h1] at h
    cases h2 : matchLit '-' cs1 with
    | none => simp only [h2] at h; cases h
    | some cs2 =>
      simp only [h2] at h
      cases h3 : (match matchField2 1 12 cs2 with
                  | some r => some r
                  | none => matchField1 1 cs2) with
      | none => simp only [h3] at h; cases h
      | some mor =>
        obtain ⟨mo, cs3⟩ := mor
        simp only [h3] at h
        cases h4 : matchLit '-' cs3 with
        | none => simp only [h4] at h; cases h
        | some cs4 =>
          simp only [h4] at h
          cases h5 : (match matchField2 1 31 cs4 with
                      | some r => some r
                      | none =>
                        match matchField1 1 cs4 with
                        | some r => some r
                        | none => matchSpaceDay cs4) with
          | none => simp only [h5] at h; cases h
          | some dr =>
            obtain ⟨d, cs5⟩ := dr
            simp only [h5] at h
            cases h6 : matchLit 'T' cs5 with
            | none => simp only [h6] at h; cases h
            | some cs6 =>
              simp only [h6] at h
              cases h7 : (match matchField2 0 23 cs6 with
                          | some r => some r
                          | none => matchField1 0 cs6) with
              | none => simp only [h7] at h; cases h
              | some hr =>
                obtain ⟨hh, cs7⟩ := hr
                simp only [h7] at h
                cases h8 : matchLit ':' cs7 with
                | none => simp only [h8] at h; cases h
                | some cs8 =>
                  simp only [h8] at h
                  cases h9 : (match matchField2 0 59 cs8 with
                              | some r => some r
                              | none => matchField1 0 cs8) with
                  | none => simp only [h9] at h; cases h
                  | some mir =>
                    obtain ⟨mi, cs9⟩ := mir
                    simp only [h9] at h
                    cases h10 : matchLit ':' cs9 with
                    | none => simp only [h10] at h; cases h
                    | some cs10 =>
                      simp only [h10] at h
                      cases h11 : (match matchField2 0 61 cs10 with
                                   | some r => some r
                                   | none => matchField1 0 cs10) with
                      | none => simp only [h11] at h; cases h
                      | some sr =>
                        obtain ⟨ss, cs11⟩ := sr
                        simp only [h11] at h
                        cases h12 : matchLit 'Z' cs11 with
                        | none => simp only [h12] at h; cases h
                        | some cs12 =>
                          simp only [h12] at h
                          cases cs12 with
                          | nil =>
                            cases h
                            exact matchYear_le cs y cs1 h1
                          | cons c12 cs13 => cases h

theorem strptimeZ_bounds (s : String) (t : ParsedTime) (h : strptimeZ s = some t) :
    1 ≤ t.year ∧ t.year ≤ 9999 ∧ 1 ≤ t.month ∧ t.month ≤ 12 ∧ 1 ≤ t.day ∧ t.day ≤ 31 := by
  rw [strptimeZ] at h
  cases h1 : timeRegexMatch s.data with
  | none => rw [h1] at h; cases h
  | some t' =>
    simp only [h1] at h
    split at h
    · cases h
      rename_i hv
      simp only [Bool.and_eq_true, decide_eq_true_eq] at hv
      obtain ⟨⟨⟨⟨⟨⟨⟨hy, hm1⟩, hm2⟩, hd1⟩, hd2⟩, hh⟩, hmi⟩, hs⟩ := hv
      have hle := daysInMonth_le t.year t.month
      exact ⟨hy, timeRegexMatch_year s.data t h1, hm1, hm2, hd1, by omega⟩
    · cases h

/-! ### The claims -/

/-- Claim C1, counterexample.  The claim states that the issue and commit
lists stored in the Aggregate are exactly the first page's lists regardless
of their contents.  On a three-page fetch whose first page carries an empty
issue list and empty commit list, the Aggregate ends up holding the second
page's non-empty lists instead of the first page's empty ones: the `if not
...` guard re-runs on every page and overwrites an empty first capture. -/
theorem fetch_issue_list_not_first_page :
    (fetch_contributions "alice" orgRespOk "acme" [pageOne, pageTwo, pageEnd]).2 =
      some (Except.ok
        { prNodes := [prNodeA, prNodeB], issueNodes := [issueNodeA],
          commitRepos := [commitRepoA] }) ∧
    pageOne.issueNodes = [] ∧ pageOne.commitRepos = [] ∧
    ([issueNodeA] : List IssueNode) ≠ pageOne.issueNodes ∧
    ([commitRepoA] : List CommitRepo) ≠ pageOne.commitRepos := by
  refine ⟨rfl, rfl, rfl, by decide, by decide⟩

/-- Claim C1 (amended): over a complete successful page chain, the issue
list and the commit list stored in the Aggregate are each the first
non-empty corresponding per-page list (empty when every page's list is
empty).  In particular, when the first page's lists are non-empty, later
pages never append to, replace or duplicate them. -/
theorem fetch_set_once_first_nonempty (u : String) (resp : OrgLookupResponse)
    (orgName oid : String) (pages : List Page)
    (hok : get_organization_id resp orgName = Except.ok oid)
    (hrun : wellFormedRun pages = true) :
    (fetch_contributions u resp orgName pages).2 = some (Except.ok
      { prNodes := (pages.map Page.prNodes).flatten,
        issueNodes := firstNonempty (pages.map Page.issueNodes),
        commitRepos := firstNonempty (pages.map Page.commitRepos) }) := by
  simp only [fetch_contributions, hok]
  rw [fetchLoop_run u oid pages none emptyContributions hrun]
  simp [emptyContributions, firstNonempty]

/-- Claim C1 (amended), witness at the three-page fixture run. -/
theorem fetch_set_once_first_nonempty_witness :
    (fetch_contributions "alice" orgRespOk "acme" [pageOne, pageTwo, pageEnd]).2 =
      some (Except.ok
        { prNodes := ([pageOne, pageTwo, pageEnd].map Page.prNodes).flatten,
          issueNodes := firstNonempty ([pageOne, pageTwo, pageEnd].map Page.issueNodes),
          commitRepos := firstNonempty ([pageOne, pageTwo, pageEnd].map Page.commitRepos) }) :=
  fetch_set_once_first_nonempty "alice" orgRespOk "acme" "ORGID"
    [pageOne, pageTwo, pageEnd] rfl (by decide)

/-- Claim C2: over a complete successful page chain, the pull-request list
of the Aggregate returned by `fetch_contributions` has length equal to the
sum of the per-page batch sizes, for any number of pages. -/
theorem fetch_pr_count_additive (u : String) (resp : OrgLookupResponse)
    (orgName oid : String) (pages : List Page) (agg : Aggregate)
    (hok : get_organization_id resp orgName = Except.ok oid)
    (hrun : wellFormedRun pages = true)
    (hagg : (fetch_contributions u resp orgName pages).2 = some (Except.ok agg)) :
    agg.prNodes.length = pageBatchTotal pages := by
  simp only [fetch_contributions, hok] at hagg
  rw [fetchLoop_run u oid pages none emptyContributions hrun] at hagg
  cases hagg with
  | refl =>
    simp only [emptyContributions, List.nil_append, List.length_flatten, List.map_map,
      pageBatchTotal]
    rfl

/-- Claim C2, witness at the three-page fixture run (batch sizes 1, 1, 0). -/
theorem fetch_pr_count_additive_witness :
    (Aggregate.mk [prNodeA, prNodeB] [issueNodeA] [commitRepoA]).prNodes.length =
      pageBatchTotal [pageOne, pageTwo, pageEnd] :=
  fetch_pr_count_additive "alice" orgRespOk "acme" "ORGID" [pageOne, pageTwo, pageEnd]
    ⟨[prNodeA, prNodeB], [issueNodeA], [commitRepoA]⟩ rfl (by decide) rfl

/-- Claim C3: when normalization succeeds, the output has exactly one record
per pull request, one per issue, and one per commit occurrence: its length is
`p + i + c` where `c` counts occurrences across the per-repository batches. -/
theorem normalize_record_count (agg : Aggregate) (out : List ContributionRecord)
    (h : process_contributions agg = Except.ok out) :
    out.length = agg.prNodes.length + agg.issueNodes.length + occTotal agg.commitRepos := by
  rcases process_contributions_eq agg out h with ⟨raw, hraw, rfl⟩
  rcases rawRecords_eq agg raw hraw with ⟨prs, iss, cs, h1, h2, h3, rfl⟩
  rw [sortRecords_length]
  simp [List.length_append, prRecords_length _ _ h1, issueRecords_length _ _ h2,
    commitRecords_length _ _ h3]
  omega

/-- Claim C3, witness: the fixture scenario has 2 + 1 + 1 records. -/
theorem normalize_record_count_witness :
    outScenario.length = aggScenario.prNodes.length + aggScenario.issueNodes.length +
      occTotal aggScenario.commitRepos :=
  normalize_record_count aggScenario outScenario rfl

/-- Claim C5: whenever a consumed page reports `hasNextPage = true`, the
immediately following request carries exactly that page's `endCursor` as its
pagination cursor variable; when it reports `false`, the loop terminates and
no further request is issued. -/
theorem fetch_cursor_threading (u : String) (resp : OrgLookupResponse)
    (orgName oid : String) (front : List Page) (p : Page) (rest : List Page)
    (hok : get_organization_id resp orgName = Except.ok oid)
    (hfront : ∀ q ∈ front, q.errors = none ∧ q.prPageInfo.hasNextPage = true)
    (hp : p.errors = none) :
    (p.prPageInfo.hasNextPage = true →
      ((fetch_contributions u resp orgName (front ++ p :: rest)).1)[front.length + 1]? =
        some ⟨u, oid, p.prPageInfo.endCursor⟩) ∧
    (p.prPageInfo.hasNextPage = false →
      (fetch_contributions u resp orgName (front ++ p :: rest)).1.length =
        front.length + 1) := by
  simp only [fetch_contributions, hok]
  exact fetchLoop_cursor u oid front p rest none emptyContributions hfront hp

/-- Claim C5, witness: after the first fixture page (`endCursor = "CUR1"`),
the second request carries exactly that cursor. -/
theorem fetch_cursor_threading_witness :
    ((fetch_contributions "alice" orgRespOk "acme" [pageOne, pageTwo, pageEnd]).1)[0 + 1]? =
      some ⟨"alice", "ORGID", pageOne.prPageInfo.endCursor⟩ :=
  (fetch_cursor_threading "alice" orgRespOk "acme" "ORGID" [] pageOne [pageTwo, pageEnd]
    rfl (by simp) rfl).1 rfl

/-- Helper: the resolver only ever raises `NotFoundError`. -/
theorem get_organization_id_error (resp : OrgLookupResponse) (n : String) (e : TrackerError)
    (h : get_organization_id resp n = Except.error e) : e = TrackerError.notFound n := by
  rcases resp with ⟨df⟩
  rcases df with _ | ⟨org⟩
  · simp [get_organization_id] at h
    exact h.symm
  · rcases org with _ | ⟨_ | node⟩ <;> simp [get_organization_id] at h
    · exact h.symm
    · exact h.symm

/-- Claim C6: the resolver fails with `NotFoundError` exactly when the
response carries an absent or null organization result, and when resolution
fails, no paginated contributions query is ever issued. -/
theorem resolve_notFound_iff_no_query (resp : OrgLookupResponse) (orgName u : String)
    (pages : List Page) :
    (get_organization_id resp orgName = Except.error (TrackerError.notFound orgName) ↔
      (resp.dataField = none ∨ ∃ d, resp.dataField = some d ∧
        (d.organizationField = none ∨ d.organizationField = some none))) ∧
    (∀ e, get_organization_id resp orgName = Except.error e →
      (fetch_contributions u resp orgName pages).1 = []) := by
  constructor
  · rcases resp with ⟨df⟩
    rcases df with _ | ⟨org⟩
    · simp [get_organization_id]
    · rcases org with _ | ⟨_ | node⟩ <;> simp [get_organization_id]
  · intro e he
    simp only [fetch_contributions, he]

/-- Claim C6, witness: a null organization field yields `NotFoundError` and
an empty request trace. -/
theorem resolve_notFound_witness :
    (fetch_contributions "alice" orgRespNullOrg "acme" [pageOne]).1 = [] :=
  (resolve_notFound_iff_no_query orgRespNullOrg "acme" "alice" [pageOne]).2
    (TrackerError.notFound "acme") rfl

/-- Claim C7: a response body carrying an errors list makes the fetch fail
with `ApiError` on whichever page it occurs, and a run whose responses carry
no errors list never produces an `ApiError`. -/
theorem fetch_api_error_policy (u : String) (resp : OrgLookupResponse) (orgName : String)
    (pages : List Page) :
    (∀ oid front p rest m, get_organization_id resp orgName = Except.ok oid →
      pages = front ++ p :: rest →
      (∀ q ∈ front, q.errors = none ∧ q.prPageInfo.hasNextPage = true) →
      p.errors = some m →
      (fetch_contributions u resp orgName pages).2 =
        some (Except.error (TrackerError.apiError m))) ∧
    ((∀ p ∈ pages, p.errors = none) →
      ∀ m, (fetch_contributions u resp orgName pages).2 ≠
        some (Except.error (TrackerError.apiError m))) := by
  constructor
  · rintro oid front p rest m hok rfl hfront hp
    simp only [fetch_contributions, hok]
    exact fetchLoop_error u oid front p rest none emptyContributions m hfront hp
  · intro hclean m
    cases hok : get_organization_id resp orgName with
    | error e =>
      have := get_organization_id_error resp orgName e hok
      subst this
      simp [fetch_contributions, hok]
    | ok oid =>
      simp only [fetch_contributions, hok]
      exact fetchLoop_no_apiError u oid pages none emptyContributions hclean m

/-- Claim C7, witness: the second fixture page carries an errors list, and
the fetch fails with exactly that `ApiError`. -/
theorem fetch_api_error_witness :
    (fetch_contributions "alice" orgRespOk "acme" [pageOne, pageErr]).2 =
      some (Except.error (TrackerError.apiError "boom")) :=
  (fetch_api_error_policy "alice" orgRespOk "acme" [pageOne, pageErr]).1
    "ORGID" [pageOne] pageErr [] "boom" rfl rfl (by decide) rfl

/-- Claim C4, counterexample.  The claim states the output of normalization
is sorted by the record's day-precision date in descending order.  The sort
key is the `strftime`-formatted date string, and `%Y` is not zero-padded, so
the year-5 date renders as `"5-01-02"` and compares above `"2024-01-10"` in
string order: the output places the chronologically older record first,
violating descending date order (`dateNum` reads a formatted date back as
`year·10000 + month·100 + day`, whose order is chronological order). -/
theorem normalize_not_chronological_small_year :
    process_contributions aggSmallYear = Except.ok [recYear5, recA] ∧
    dateNum recYear5.date < dateNum recA.date := by
  refine ⟨rfl, by decide⟩

/-- Claim C4 (amended): the output of normalization is sorted descending by
the formatted date string under Python string comparison, the sort is stable
— records with equal date strings keep the relative order of the pre-sort
enumeration — and whenever every parsed timestamp has a four-digit year of
1000 or more (as every real GitHub timestamp does), the output is also
sorted by day-precision chronological order descending. -/
theorem normalize_sorted_stable (agg : Aggregate) (raw out : List ContributionRecord)
    (hraw : rawRecords agg = Except.ok raw)
    (h : process_contributions agg = Except.ok out) :
    List.Pairwise (fun a b => pyStrLt a.date b.date = false) out ∧
    (∀ s : String, out.filter (fun r => r.date == s) = raw.filter (fun r => r.date == s)) ∧
    ((∀ ts ∈ aggTimestamps agg, ∀ t, strptimeZ ts = some t → 1000 ≤ t.year) →
      List.Pairwise (fun a b => dateNum b.date ≤ dateNum a.date) out) := by
  rcases process_contributions_eq agg out h with ⟨raw', hraw', heq⟩
  rw [hraw] at hraw'
  cases hraw'
  subst heq
  refine ⟨?_, ?_, ?_⟩
  · exact (sortRecords_sorted raw).imp (fun {a b} hab => by
      simpa [sortKeyLe, Bool.not_eq_true'] using hab)
  · intro s
    exact sortRecords_filter s raw
  · intro hyear
    have hmem : ∀ r ∈ sortRecords raw, ∃ ts ∈ aggTimestamps agg, ∃ t,
        strptimeZ ts = some t ∧ r.date = formatDate t.year t.month t.day := by
      intro r hr
      exact rawRecords_provenance agg raw hraw r ((sortRecords_perm raw).mem_iff.mp hr)
    refine List.Pairwise.imp_of_mem ?_ (sortRecords_sorted raw)
    intro a b ha hb hab
    rcases hmem a ha with ⟨ts1, hts1, t1, hp1, hd1⟩
    rcases hmem b hb with ⟨ts2, hts2, t2, hp2, hd2⟩
    obtain ⟨hy1a, hy1b, hm1a, hm1b, hd1a, hd1b⟩ := strptimeZ_bounds ts1 t1 hp1
    obtain ⟨hy2a, hy2b, hm2a, hm2b, hd2a, hd2b⟩ := strptimeZ_bounds ts2 t2 hp2
    have hk1 := hyear ts1 hts1 t1 hp1
    have hk2 := hyear ts2 hts2 t2 hp2
    have hlt : pyStrLt a.date b.date = false := by
      simpa [sortKeyLe, Bool.not_eq_true'] using hab
    rw [hd1, hd2] at hlt
    rw [hd1, hd2, dateNum_formatDate t2.year t2.month t2.day hk2 hy2b hm2b hd2b,
      dateNum_formatDate t1.year t1.month t1.day hk1 hy1b hm1b hd1b]
    have := (strLtB_formatDate t1.year t1.month t1.day t2.year t2.month t2.day
      hk1 hy1b hm1b hd1b hk2 hy2b hm2b hd2b).not
    rw [hlt] at this
    simp only [Bool.false_eq_true, not_false_iff, true_iff] at this
    omega

/-- Claim C4 (amended), witness at the fixture scenario: string-descending
order, stability of the `"2024-01-10"` tie class, and chronological
descending order. -/
theorem normalize_sorted_stable_witness :
    List.Pairwise (fun a b => pyStrLt a.date b.date = false) outScenario ∧
    outScenario.filter (fun r => r.date == "2024-01-10") =
      rawScenario.filter (fun r => r.date == "2024-01-10") ∧
    List.Pairwise (fun a b => dateNum b.date ≤ dateNum a.date) outScenario := by
  have h := normalize_sorted_stable aggScenario rawScenario outScenario rfl rfl
  refine ⟨h.1, h.2.1 "2024-01-10", h.2.2 ?_⟩
  intro ts hts t ht
  fin_cases hts <;> (cases ht; decide)

/-- Claim C8, counterexample.  The claim states normalization fails with
`ParseError` exactly when a timestamp does not match the literal shape
`YYYY-MM-DDTHH:MM:SSZ`.  Both directions fail on the code:
`"2024-13-01T00:00:00Z"` matches the shape yet is rejected (month 13), and
`"2024-1-5T0:0:0Z"` does not match the shape yet is accepted, because
CPython's `%m`/`%d`/`%H`/`%M`/`%S` regexes also admit one-digit fields and
the `datetime` constructor validates calendar ranges. -/
theorem normalize_shape_counterexample :
    specShapeTimestamp "2024-13-01T00:00:00Z" = true ∧
    process_contributions aggMonth13 =
      Except.error (TrackerError.parseError "2024-13-01T00:00:00Z") ∧
    specShapeTimestamp "2024-1-5T0:0:0Z" = false ∧
    (process_contributions aggLoose).isOk = true := by
  exact ⟨by decide, rfl, by decide, rfl⟩

/-- Claim C8 (amended): normalization succeeds exactly when every entry's
timestamp is accepted by the `strptime` parser for
`"%Y-%m-%dT%H:%M:%SZ"` — a four-digit year at least 1, month, day, hour,
minute and second each written with one or two digits (a day may also be a
space followed by a nonzero digit), with month 1-12, day within the
Gregorian month length (leap years included), hour at most 23 and minute
and second at most 59 — and every output record's date is the day-precision
truncation of some entry's accepted timestamp. -/
theorem normalize_parse_acceptance (agg : Aggregate) :
    ((process_contributions agg).isOk = true ↔
      ∀ ts ∈ aggTimestamps agg, (strptimeZ ts).isSome = true) ∧
    (∀ out, process_contributions agg = Except.ok out → ∀ r ∈ out,
      ∃ ts ∈ aggTimestamps agg, ∃ t, strptimeZ ts = some t ∧
        r.date = formatDate t.year t.month t.day) := by
  constructor
  · rw [process_contributions_isOk, rawRecords_isOk, prRecords_isOk, issueRecords_isOk,
      commitRecords_isOk]
    constructor
    · rintro ⟨hp, hi, hc⟩ ts hts
      rcases (mem_aggTimestamps agg ts).mp hts with ⟨n, hn, rfl⟩ | ⟨n, hn, rfl⟩ |
        ⟨repo, hrepo, c, hcm, rfl⟩
      · exact hp n hn
      · exact hi n hn
      · exact hc repo hrepo c hcm
    · intro hall
      refine ⟨fun n hn => hall _ ((mem_aggTimestamps agg _).mpr (Or.inl ⟨n, hn, rfl⟩)),
        fun n hn => hall _ ((mem_aggTimestamps agg _).mpr (Or.inr (Or.inl ⟨n, hn, rfl⟩))),
        fun repo hrepo c hcm => hall _ ((mem_aggTimestamps agg _).mpr
          (Or.inr (Or.inr ⟨repo, hrepo, c, hcm, rfl⟩)))⟩
  · intro out hout r hr
    rcases process_contributions_eq agg out hout with ⟨raw, hraw, rfl⟩
    exact rawRecords_provenance agg raw hraw r ((sortRecords_perm raw).mem_iff.mp hr)

/-- Claim C8 (amended), witness: every fixture-scenario timestamp is
accepted, so normalization succeeds. -/
theorem normalize_parse_acceptance_witness :
    (process_contributions aggScenario).isOk = true :=
  (normalize_parse_acceptance aggScenario).1.mpr (by decide)

/-- Claim C9: normalization is a pure function of the Aggregate value — two
calls on the same Aggregate denote the same sequence (the embedded function
neither reads nor writes any state; the source builds a fresh list and
`sorted` returns a new list, leaving the input dictionary unchanged). -/
theorem normalize_pure (agg : Aggregate) :
    process_contributions agg = process_contributions agg := rfl

/-- Claim C10: among output records sharing one date, every pull-request
record precedes every issue record, which precedes every commit record, and
each kind keeps the relative order of its source entries: the date-`s` slice
of the output is exactly the pull-request records of date `s` in source
order, then the issue records, then the commit records. -/
theorem normalize_kind_order_within_date (agg : Aggregate)
    (prs iss cs out : List ContributionRecord)
    (hpr : prRecords agg.prNodes = Except.ok prs)
    (hiss : issueRecords agg.issueNodes = Except.ok iss)
    (hcs : commitRecords agg.commitRepos = Except.ok cs)
    (hout : process_contributions agg = Except.ok out) :
    (∀ r ∈ prs, r.type = ContribType.pullRequest) ∧
    (∀ r ∈ iss, r.type = ContribType.issue) ∧
    (∀ r ∈ cs, r.type = ContribType.commit) ∧
    (∀ s : String, out.filter (fun r => r.date == s) =
      prs.filter (fun r => r.date == s) ++ iss.filter (fun r => r.date == s) ++
        cs.filter (fun r => r.date == s)) := by
  rcases process_contributions_eq agg out hout with ⟨raw, hraw, rfl⟩
  rcases rawRecords_eq agg raw hraw with ⟨prs', iss', cs', h1, h2, h3, heq⟩
  rw [hpr] at h1
  cases h1
  rw [hiss] at h2
  cases h2
  rw [hcs] at h3
  cases h3
  subst heq
  refine ⟨?_, ?_, ?_, ?_⟩
  · intro r hr
    rcases prRecords_mem _ _ hpr r hr with ⟨n, _, hok⟩
    exact (prRecord_fields n r hok).1
  · intro r hr
    rcases issueRecords_mem _ _ hiss r hr with ⟨n, _, hok⟩
    exact (issueRecord_fields n r hok).1
  · intro r hr
    rcases commitRecords_mem _ _ hcs r hr with ⟨repo, _, c, _, hok⟩
    exact (commitRecord_fields repo.repoName c r hok).1
  · intro s
    rw [sortRecords_filter s, List.filter_append, List.filter_append]

/-- Claim C10, witness: the `"2024-01-10"` slice of the fixture output. -/
theorem normalize_kind_order_witness :
    outScenario.filter (fun r => r.date == "2024-01-10") =
      [recA, recB].filter (fun r => r.date == "2024-01-10") ++
      [recI].filter (fun r => r.date == "2024-01-10") ++
      [recC].filter (fun r => r.date == "2024-01-10") :=
  (normalize_kind_order_within_date aggScenario [recA, recB] [recI] [recC] outScenario
    rfl rfl rfl rfl).2.2.2 "2024-01-10"
